import Mathlib

/-!
Verification development for the natshd daemon: a shallow embedding of the
service-definition validator (internal/service/definition.go), the script
invoker (internal/service ScriptRunner), the subject rewriter
(internal/config Config), the ManagedService request path and the
ServiceManager lifecycle operations (internal/supervisor), together with
theorems about them.

Modelling conventions:
- byte strings (payloads, stdout, stderr) are modelled as List Nat;
- Go maps are modelled as association lists that record insertion order;
  a Go `range` over a map may visit entries in ANY order, so functions that
  iterate a map take the iteration snapshot as an explicit list and
  order-dependent results are examined for the possible orders;
- wall-clock time is modelled by giving each script invocation a duration
  in milliseconds and a context a deadline in milliseconds; a context
  created by context.WithTimeout(d) expires during an invocation exactly
  when the duration exceeds d, and context.Background() never expires;
- subprocess execution is modelled by a behaviour function from the
  argument and stdin to an outcome (exit code plus captured streams, or a
  spawn failure), mirroring os/exec semantics as used by the code.
-/

namespace Natshd

/-! ## Characters, trimming and the subject character set -/

/-- Whitespace predicate modelling unicode.IsSpace on the Latin-1 range,
as used by strings.TrimSpace in Go. -/
def isGoSpace (c : Char) : Bool :=
  c.toNat == 32 || c.toNat == 9 || c.toNat == 10 || c.toNat == 11 ||
  c.toNat == 12 || c.toNat == 13 || c.toNat == 133 || c.toNat == 160

/-- Embeds strings.TrimSpace: removes leading and trailing whitespace. -/
def trimSpace (s : String) : String :=
  ⟨((s.data.dropWhile isGoSpace).reverse.dropWhile isGoSpace).reverse⟩

/-- One character of the regular expression class [a-zA-Z0-9._-] from
Endpoint.Validate in internal/service/definition.go. -/
def validSubjectChar (c : Char) : Bool :=
  (65 ≤ c.toNat && c.toNat ≤ 90) || (97 ≤ c.toNat && c.toNat ≤ 122) ||
  (48 ≤ c.toNat && c.toNat ≤ 57) || c.toNat == 46 || c.toNat == 95 ||
  c.toNat == 45

/-- The whole-string match of the anchored regular expression
[a-zA-Z0-9._-]+ used by Endpoint.Validate: non-empty and every character
in the class. -/
def validSubjectString (s : String) : Bool :=
  !s.data.isEmpty && s.data.all validSubjectChar

/-! ## Service definitions and validation (internal/service/definition.go) -/

/-- Endpoint from definition.go: a named handler for one subject. -/
structure Endpoint where
  name : String
  subject : String
  deriving DecidableEq, Repr

/-- ServiceDefinition from definition.go. -/
structure ServiceDefinition where
  name : String
  version : String
  description : String
  endpoints : List Endpoint
  deriving DecidableEq, Repr

/-- The distinct failure reasons of Endpoint.Validate, one constructor per
fmt.Errorf message. -/
inductive EndpointError where
  | emptyName
  | emptySubject
  | invalidSubjectChars (subject : String)
  deriving DecidableEq, Repr

/-- The distinct failure reasons of ServiceDefinition.Validate, one
constructor per fmt.Errorf message. -/
inductive DefinitionError where
  | emptyServiceName
  | noEndpoints
  | invalidEndpoint (index : Nat) (err : EndpointError)
  | duplicateEndpointName (name : String)
  | duplicateEndpointSubject (subject : String)
  deriving DecidableEq, Repr

/-- Embeds Endpoint.Validate: empty trimmed name, empty trimmed subject,
then the character-class check, in source order. -/
def Endpoint.validate (e : Endpoint) : Option EndpointError :=
  if trimSpace e.name = "" then some .emptyName
  else if trimSpace e.subject = "" then some .emptySubject
  else if !validSubjectString e.subject then some (.invalidSubjectChars e.subject)
  else none

/-- The endpoint loop of ServiceDefinition.Validate: validates each
endpoint and tracks seen names and subjects (the Go sets nameMap and
subjectMap), reporting the first failure. -/
def validateEndpointList :
    List Endpoint → Nat → List String → List String → Option DefinitionError
  | [], _, _, _ => none
  | e :: rest, i, names, subjects =>
    match e.validate with
    | some err => some (.invalidEndpoint i err)
    | none =>
      if e.name ∈ names then some (.duplicateEndpointName e.name)
      else if e.subject ∈ subjects then some (.duplicateEndpointSubject e.subject)
      else validateEndpointList rest (i + 1) (e.name :: names) (e.subject :: subjects)

/-- Embeds ServiceDefinition.Validate from definition.go. -/
def ServiceDefinition.validate (sd : ServiceDefinition) : Option DefinitionError :=
  if trimSpace sd.name = "" then some .emptyServiceName
  else if sd.endpoints.isEmpty then some .noEndpoints
  else validateEndpointList sd.endpoints 0 [] []

/-! ## Contexts and deadlines (context package as used by the code) -/

/-- A context as the code constructs them: context.Background() or
context.WithTimeout with a deadline in milliseconds. -/
inductive Ctx where
  | background
  | withTimeout (deadlineMs : Nat)
  deriving DecidableEq, Repr

/-- Whether the context carries a finite deadline. -/
def Ctx.hasDeadline : Ctx → Bool
  | .background => false
  | .withTimeout _ => true

/-- Whether a context expires during an invocation that takes
durationMs milliseconds: context.Background() never expires, a
WithTimeout context expires exactly when the duration exceeds it. -/
def ctxExpires (c : Ctx) (durationMs : Nat) : Bool :=
  match c with
  | .background => false
  | .withTimeout d => d < durationMs

/-! ## Script invoker (internal/service ScriptRunner) -/

/-- Outcome of launching a script once: the process ran to completion
with an exit code and captured streams, or could not be spawned. -/
inductive RunOut where
  | exited (code : Int) (stdout stderr : List Nat)
  | startFailed
  deriving DecidableEq, Repr

/-- One invocation of a script: how long it takes and how it ends. -/
structure ScriptExec where
  durationMs : Nat
  out : RunOut
  deriving DecidableEq, Repr

/-- Model of the executable file behind one ScriptRunner path.
info is the parsed and validated ServiceDefinition produced by running
the script with the single argument info (none models every describe
failure: non-zero exit, unparsable JSON, invalid definition, or spawn
failure); infoDurationMs is how long the describe invocation takes.
run gives the behaviour of a handle invocation from the argument and
the stdin payload. -/
structure Script where
  info : Option ServiceDefinition
  infoDurationMs : Nat
  run : String → List Nat → ScriptExec

/-- ExecutionResult from runner.go. -/
structure ExecutionResult where
  success : Bool
  stdout : List Nat
  stderr : List Nat
  exitCode : Int
  deriving DecidableEq, Repr

/-- Invocation-level errors returned by ExecuteRequest alongside the
record: context expiry or a spawn failure. -/
inductive ExecError where
  | timeout
  | spawnFailed
  deriving DecidableEq, Repr

/-- Embeds ScriptRunner.GetServiceDefinition: runs the script with the
argument info under the given context; if the context expires first the
call fails (timeout), otherwise the outcome is the script describe
result. -/
def getServiceDefinition (c : Ctx) (s : Script) : Option ServiceDefinition :=
  if ctxExpires c s.infoDurationMs then none else s.info

/-- Embeds ScriptRunner.ExecuteRequest from runner.go: launch the script
with the subject as its single argument and the payload on stdin; the
result record has Success set iff cmd.Run returned no error, the two
captured streams, and ExitCode zero except on a non-zero exit, where the
exit code is recorded and no invocation-level error is returned.
Context expiry is checked first and yields a timeout error; a spawn
failure yields an error with empty streams. -/
def executeRequest (c : Ctx) (run : String → List Nat → ScriptExec)
    (subject : String) (payload : List Nat) : ExecutionResult × Option ExecError :=
  let ex := run subject payload
  match ex.out with
  | .startFailed =>
    ({ success := false, stdout := [], stderr := [], exitCode := 0 }, some .spawnFailed)
  | .exited code so se =>
    if ctxExpires c ex.durationMs then
      ({ success := false, stdout := so, stderr := se, exitCode := 0 }, some .timeout)
    else if code = 0 then
      ({ success := true, stdout := so, stderr := se, exitCode := 0 }, none)
    else
      ({ success := false, stdout := so, stderr := se, exitCode := code }, none)

/-! ## Subject rewriter (internal/config/config.go) -/

/-- Config as the rewriter sees it: the configured hostname value and the
operating-system hostname lookup outcome (none when os.Hostname fails). -/
structure Config where
  hostname : String
  sysHostname : Option String

/-- Embeds Config.ResolveHostname: auto or empty defers to the system
hostname, anything else is used verbatim. -/
def Config.resolveHostname (c : Config) : Option String :=
  if c.hostname = "auto" ∨ c.hostname = "" then c.sysHostname else some c.hostname

/-- Embeds Config.PrefixSubject: the resolved hostname (or the literal
unknown when resolution fails) plus a dot plus the subject. -/
def Config.prefixSubject (c : Config) (subject : String) : String :=
  (match c.resolveHostname with
   | some h => h
   | none => "unknown") ++ "." ++ subject

/-- Embeds ManagedService.stripHostnamePrefix: when hostname resolution
fails the subject is returned unchanged; otherwise the prefix
hostname-plus-dot is removed exactly when the subject is strictly longer
than the prefix and starts with it. -/
def stripHostnamePfx (c : Config) (subject : String) : String :=
  match c.resolveHostname with
  | none => subject
  | some h =>
    let pfx := (h ++ ".").data
    if pfx.length < subject.data.length ∧ subject.data.take pfx.length = pfx then
      ⟨subject.data.drop pfx.length⟩
    else subject

/-! ## Association lists standing in for Go maps -/

/-- Map lookup m[k]. -/
def lookupS {α : Type} (m : List (String × α)) (k : String) : Option α :=
  (m.find? (fun p => p.1 = k)).map (·.2)

/-- Map assignment m[k] = v: overwrites the value of an existing key in
place, otherwise appends the new entry. -/
def insertS {α : Type} : List (String × α) → String → α → List (String × α)
  | [], k, v => [(k, v)]
  | p :: t, k, v => if p.1 = k then (k, v) :: t else p :: insertS t k v

/-- Map deletion delete(m, k). -/
def eraseS {α : Type} (m : List (String × α)) (k : String) : List (String × α) :=
  m.filter (fun p => !(p.1 = k : Bool))

/-! ## Managed service (internal/supervisor service) -/

/-- ManagedService state relevant to grouping and dispatch: the
scripts map (path to runner, as an insertion-ordered snapshot), the
merged definition and the initialized flag. -/
structure ManagedService where
  scripts : List (String × Script)
  definition : ServiceDefinition
  initialized : Bool

/-- NewManagedService: empty scripts map, zero definition. -/
def ManagedService.new : ManagedService :=
  { scripts := [], definition := ⟨"", "", "", []⟩, initialized := false }

/-- Failure reasons of ManagedService.Initialize. -/
inductive InitError where
  | noScripts
  | defFailed
  deriving DecidableEq, Repr

/-- The inner endpoint loop of ManagedService.Initialize: each endpoint
subject is rewritten with the hostname prefix and recorded unless the
rewritten subject is already present (duplicate dropped, first kept). -/
def addEndpoints (cfg : Config) (acc : List Endpoint) (es : List Endpoint) :
    List Endpoint :=
  es.foldl
    (fun acc e =>
      let subj := cfg.prefixSubject e.subject
      if acc.any (fun a => a.subject = subj) then acc
      else acc ++ [{ e with subject := subj }])
    acc

/-- The script loop of ManagedService.Initialize over one iteration
order of the scripts map: scripts whose probe fails or whose declared
name disagrees with the first script name are skipped, the rest
contribute endpoints first-in-iteration-wins. -/
def mergeScripts (cfg : Config) (c : Ctx) (expected : String) :
    List (String × Script) → List Endpoint → List Endpoint
  | [], acc => acc
  | (_, sc) :: rest, acc =>
    match getServiceDefinition c sc with
    | none => mergeScripts cfg c expected rest acc
    | some d =>
      if d.name = expected then
        mergeScripts cfg c expected rest (addEndpoints cfg acc d.endpoints)
      else
        mergeScripts cfg c expected rest acc

/-- Embeds ManagedService.Initialize: fails on an empty scripts map or
when the first script probe fails, leaving the service unchanged;
otherwise adopts the first script definition, replaces its endpoints by
the merged rewritten endpoint set of all member scripts and sets the
initialized flag. The scripts field is the iteration snapshot of the Go
map. -/
def initService (cfg : Config) (c : Ctx) (ms : ManagedService) :
    ManagedService × Option InitError :=
  match ms.scripts with
  | [] => (ms, some .noScripts)
  | (_, first) :: _ =>
    match getServiceDefinition c first with
    | none => (ms, some .defFailed)
    | some d0 =>
      let eps := mergeScripts cfg c d0.name ms.scripts []
      ({ ms with definition := { d0 with endpoints := eps }, initialized := true },
       none)

/-! ## Request handling (ManagedService.HandleRequest) -/

/-- One subprocess invocation as HandleRequest performs it: the path of
the chosen script, the argv after the program name, and the bytes
written to stdin. -/
structure Invocation where
  path : String
  args : List String
  stdin : List Nat
  deriving DecidableEq, Repr

/-- The error replies HandleRequest can produce on the bus. -/
inductive RespError where
  | noScript (subject : String)
  | execFailed (e : ExecError)
  | scriptFailed (exitCode : Int) (stderr : List Nat)
  deriving DecidableEq, Repr

/-- The bus response of one request: a reply with bytes or an error. -/
inductive Response where
  | reply (data : List Nat)
  | respondError (e : RespError)
  deriving DecidableEq, Repr

/-- What one HandleRequest call did: the context it created for the
script invocations, the invocation it performed (if a script was found)
and the response it sent. -/
structure HandleRecord where
  ctx : Ctx
  invoked : Option Invocation
  response : Response

/-- The routing scan of HandleRequest: the first script in the iteration
order whose probe succeeds and whose definition contains an endpoint
whose rewritten subject equals the request subject. -/
def findScript (cfg : Config) (c : Ctx) (scripts : List (String × Script))
    (subject : String) : Option (String × Script) :=
  scripts.find? (fun p =>
    match getServiceDefinition c p.2 with
    | none => false
    | some d => d.endpoints.any (fun e => cfg.prefixSubject e.subject = subject))

/-- Embeds ManagedService.HandleRequest: creates ctx :=
context.Background(), scans the scripts map (given here as one iteration
snapshot) for the owner of the request subject, strips the hostname
prefix, executes the script with the stripped subject as its single
argument and the request payload on stdin, and maps the execution record
to a reply (stdout verbatim on success) or an error response. -/
def handleRequest (cfg : Config) (scripts : List (String × Script))
    (subject : String) (payload : List Nat) : HandleRecord :=
  match findScript cfg Ctx.background scripts subject with
  | none => ⟨Ctx.background, none, .respondError (.noScript subject)⟩
  | some (path, sc) =>
    let orig := stripHostnamePfx cfg subject
    let inv : Invocation := ⟨path, [orig], payload⟩
    let r := executeRequest Ctx.background sc.run orig payload
    match r.2 with
    | some e => ⟨Ctx.background, some inv, .respondError (.execFailed e)⟩
    | none =>
      if r.1.success then ⟨Ctx.background, some inv, .reply r.1.stdout⟩
      else ⟨Ctx.background, some inv,
            .respondError (.scriptFailed r.1.exitCode r.1.stderr)⟩

/-! ## Supervisor / manager (internal/supervisor ServiceManager) -/

/-- The five-second describe deadline used by IsValidScript. -/
def describeDeadlineMs : Nat := 5000

/-- The ten-second deadline RestartServiceGracefully passes to
Initialize. -/
def restartDeadlineMs : Nat := 10000

/-- The ServiceManager state the lifecycle operations touch: the
services map (service name to ManagedService) and the script-to-service
index. -/
structure ManagerState where
  services : List (String × ManagedService)
  scriptToService : List (String × String)

/-- The manager state at startup. -/
def ManagerState.empty : ManagerState := ⟨[], []⟩

/-- Error outcomes of the manager operations (logged or returned). -/
inductive MgrError where
  | probeFailed
  | initFailed
  deriving DecidableEq, Repr

/-- Embeds ServiceManager.AddService. env maps a script path to the
script behind it (NewScriptRunner path). An already-tracked path is
ignored; a failing probe is an error; a known service name gets the
script added to its map and index and is re-initialized (a re-init
failure is returned but the insertions stay); a new name creates a
fresh single-script service that is recorded only when its
initialization succeeds. All probes run under context.Background(). -/
def addService (cfg : Config) (env : String → Script) (st : ManagerState)
    (path : String) : ManagerState × Option MgrError :=
  match lookupS st.scriptToService path with
  | some _ => (st, none)
  | none =>
    match getServiceDefinition Ctx.background (env path) with
    | none => (st, some .probeFailed)
    | some d =>
      let name := d.name
      match lookupS st.services name with
      | some svc =>
        let svc1 := { svc with scripts := insertS svc.scripts path (env path) }
        let res := initService cfg Ctx.background svc1
        ({ services := insertS st.services name res.1,
           scriptToService := insertS st.scriptToService path name },
         res.2.map (fun _ => .initFailed))
      | none =>
        let svc0 := { ManagedService.new with scripts := insertS [] path (env path) }
        let res := initService cfg Ctx.background svc0
        match res.2 with
        | some _ => (st, some .initFailed)
        | none =>
          ({ services := insertS st.services name res.1,
             scriptToService := insertS st.scriptToService path name },
           none)

/-- Embeds ServiceManager.RemoveService: resolve the path to its
service (no-op when untracked, index cleanup when the service is
missing); delete the script from the service and the index; drop the
whole service when its scripts map became empty, otherwise re-initialize
it (a re-init failure is only logged). -/
def removeService (cfg : Config) (st : ManagerState) (path : String) :
    ManagerState × Option MgrError :=
  match lookupS st.scriptToService path with
  | none => (st, none)
  | some name =>
    match lookupS st.services name with
    | none => ({ st with scriptToService := eraseS st.scriptToService path }, none)
    | some svc =>
      let svc1 := { svc with scripts := eraseS svc.scripts path }
      let idx := eraseS st.scriptToService path
      if svc1.scripts.isEmpty then
        ({ services := eraseS st.services name, scriptToService := idx }, none)
      else
        let res := initService cfg Ctx.background svc1
        ({ services := insertS st.services name res.1, scriptToService := idx },
         none)

/-- Embeds ServiceManager.RestartServiceGracefully: resolve the path to
its service (no-op when untracked or missing), stop the old bus
registration, re-initialize the service under a ten-second deadline
(re-probing every member script) and re-attach it under the SAME
service-name key; neither the services map keys nor the
script-to-service index change. -/
def restartServiceGracefully (cfg : Config) (st : ManagerState)
    (path : String) : ManagerState × Option MgrError :=
  match lookupS st.scriptToService path with
  | none => (st, none)
  | some name =>
    match lookupS st.services name with
    | none => (st, none)
    | some svc =>
      let res := initService cfg (Ctx.withTimeout restartDeadlineMs) svc
      ({ st with services := insertS st.services name res.1 },
       res.2.map (fun _ => .initFailed))

/-! ## Discovery (ServiceManager.DiscoverServices / IsValidScript) -/

/-- A file met by the startup walk: its path, its nesting depth below
the scripts directory (0 = directly inside it; filepath.Walk also yields
deeper entries), whether it is a directory, its permission bits and the
script behaviour behind it. -/
structure FileEntry where
  path : String
  depth : Nat
  isDir : Bool
  mode : Nat
  script : Script

/-- A path with no file behind it: every invocation fails to spawn. -/
def noScript : Script :=
  { info := none, infoDurationMs := 0, run := fun _ _ => ⟨0, .startFailed⟩ }

/-- The filesystem as NewScriptRunner sees it: the script behind the
first entry with the given path. -/
def envOf (fs : List FileEntry) (p : String) : Script :=
  match fs.find? (fun e => e.path = p) with
  | some e => e.script
  | none => noScript

/-- Does the path name end in .sh (strings.HasSuffix)? -/
def hasShSuffix (s : String) : Bool :=
  s.data.reverse.take 3 = ['h', 's', '.']

/-- Embeds ServiceManager.IsValidScript: the .sh suffix check, any
executable permission bit (mode & 0111), and a describe probe that
succeeds within the five-second deadline. -/
def isValidScript (e : FileEntry) : Bool :=
  hasShSuffix e.path && (e.mode &&& 0o111 != 0) &&
  (getServiceDefinition (Ctx.withTimeout describeDeadlineMs) e.script).isSome

/-- The filepath.Walk callback fold of DiscoverServices over the walk
sequence: directories are skipped, every other entry passing
IsValidScript is handed to AddService (whose error is only logged). -/
def discoverGo (cfg : Config) (env : String → Script) :
    List FileEntry → ManagerState → ManagerState
  | [], st => st
  | e :: rest, st =>
    if e.isDir then discoverGo cfg env rest st
    else if isValidScript e then
      discoverGo cfg env rest (addService cfg env st e.path).1
    else discoverGo cfg env rest st

/-- Embeds ServiceManager.DiscoverServices: filepath.Walk yields every
entry below the scripts directory (all depths); each file passing
IsValidScript is added. -/
def discoverServices (cfg : Config) (fs : List FileEntry) (st : ManagerState) :
    ManagerState :=
  discoverGo cfg (envOf fs) fs st

/-! ## Concrete fixtures used by scenario theorems -/

/-- A node configured with the explicit host identifier web01. -/
def cfgWeb : Config := { hostname := "web01", sysHostname := some "osname" }

/-- The facts.sh script of the duplicate-subject scenario: service Sys,
endpoint Facts on subject sys.facts, replying with byte 70. -/
def factsScript : Script :=
  { info := some ⟨"Sys", "1", "", [⟨"Facts", "sys.facts"⟩]⟩
    infoDurationMs := 0
    run := fun _ _ => ⟨0, .exited 0 [70] []⟩ }

/-- The dup.sh script of the duplicate-subject scenario: also service
Sys, endpoint Facts2 on the same subject sys.facts, replying with
byte 68. -/
def dupScript : Script :=
  { info := some ⟨"Sys", "1", "", [⟨"Facts2", "sys.facts"⟩]⟩
    infoDurationMs := 0
    run := fun _ _ => ⟨0, .exited 0 [68] []⟩ }

/-- Filesystem view with facts.sh and dup.sh. -/
def envSys : String → Script := fun p =>
  if p = "facts.sh" then factsScript
  else if p = "dup.sh" then dupScript
  else noScript

/-- Manager state after admitting facts.sh and then dup.sh. -/
def stSys : ManagerState :=
  (addService cfgWeb envSys
    (addService cfgWeb envSys ManagerState.empty "facts.sh").1 "dup.sh").1

/-- The Sys managed service as the manager state stSys holds it after
facts.sh and then dup.sh were admitted. -/
def svcSys : ManagedService :=
  (lookupS stSys.services "Sys").getD ManagedService.new

/-- A script whose handle invocation takes one million seconds before
exiting 0 with stdout byte 79 (the sleeping script of the timeout
scenario). -/
def slowScript : Script :=
  { info := some ⟨"Slow", "1", "", [⟨"S", "slow.s"⟩]⟩
    infoDurationMs := 0
    run := fun _ _ => ⟨1000000000, .exited 0 [79] []⟩ }

/-- The a.sh script after an edit that renamed its service from Old to
New. -/
def renamedScript : Script :=
  { info := some ⟨"New", "1", "", [⟨"E", "e.sub"⟩]⟩
    infoDurationMs := 0
    run := fun _ _ => ⟨0, .exited 0 [] []⟩ }

/-- Manager state before the restart: a.sh belongs to the service Old. -/
def stOld : ManagerState :=
  { services := [("Old", { scripts := [("a.sh", renamedScript)]
                           definition := ⟨"Old", "1", "", [⟨"E", "web01.e.sub"⟩]⟩
                           initialized := true })]
    scriptToService := [("a.sh", "Old")] }

/-- The greet.sh script of the single-script scenario: service G with
one endpoint on the declared subject g.hi. -/
def greetScript : Script :=
  { info := some ⟨"G", "1", "", [⟨"Hi", "g.hi"⟩]⟩
    infoDurationMs := 0
    run := fun _ _ => ⟨3, .exited 0 [72, 105] []⟩ }

/-- The predicate of the HandleRequest routing scan: the script probe
succeeds and some declared endpoint rewrites to the request subject. -/
def claimsSubject (cfg : Config) (subject : String) (q : String × Script) : Bool :=
  match getServiceDefinition Ctx.background q.2 with
  | none => false
  | some d => d.endpoints.any (fun e => cfg.prefixSubject e.subject = subject)

/-- Invariant P3: every service present in the services map holds at
least one script. -/
def NoEmptyServices (st : ManagerState) : Prop :=
  ∀ name svc, lookupS st.services name = some svc → svc.scripts ≠ []

/-- The walk sequence of a scripts directory whose only file sits inside
a subdirectory (depth 1 below the configured directory). -/
def fsNested : List FileEntry :=
  [{ path := "sub/x.sh", depth := 1, isDir := false, mode := 0o755,
     script := factsScript }]

/-- The walk sequence of a directory holding only greet.sh. -/
def fsGreet : List FileEntry :=
  [{ path := "greet.sh", depth := 0, isDir := false, mode := 0o755,
     script := greetScript }]

example : lookupS stSys.scriptToService "dup.sh" = some "Sys" := by decide
example : lookupS stSys.scriptToService "facts.sh" = some "Sys" := by decide
example :
    ((lookupS stSys.services "Sys").getD ManagedService.new).scripts.map Prod.fst
      = ["facts.sh", "dup.sh"] := by decide
example :
    ((lookupS stSys.services "Sys").getD ManagedService.new).definition.endpoints
      = [⟨"Facts", "web01.sys.facts"⟩] := by decide
example :
    (handleRequest cfgWeb [("dup.sh", dupScript), ("facts.sh", factsScript)]
        "web01.sys.facts" []).invoked = some ⟨"dup.sh", ["sys.facts"], []⟩ := by decide
example :
    (handleRequest cfgWeb [("facts.sh", factsScript), ("dup.sh", dupScript)]
        "web01.sys.facts" [1, 2]).response = Response.reply [70] := by decide

example : Natshd.ServiceDefinition.validate ⟨"S", "", "", [⟨"a", "x.y"⟩]⟩ = none := by decide
example :
    Natshd.ServiceDefinition.validate ⟨"S", "", "", [⟨"a", "x y"⟩]⟩
      = some (.invalidEndpoint 0 (.invalidSubjectChars "x y")) := by decide
example :
    Natshd.ServiceDefinition.validate ⟨"S", "", "", [⟨"a", "x"⟩, ⟨"a", "y"⟩]⟩
      = some (.duplicateEndpointName "a") := by decide
example : stripHostnamePfx cfgWeb "web01.g.hi" = "g.hi" := by decide
example : stripHostnamePfx cfgWeb "web01x.g.hi" = "web01x.g.hi" := by decide
example : stripHostnamePfx cfgWeb "web01." = "web01." := by decide

/-! ## Helper lemmas about the map embedding -/

theorem lookupS_nil {α : Type} (k : String) : lookupS ([] : List (String × α)) k = none :=
  rfl

theorem lookupS_cons {α : Type} (p : String × α) (t : List (String × α)) (k : String) :
    lookupS (p :: t) k = if p.1 = k then some p.2 else lookupS t k := by
  unfold lookupS
  rw [List.find?_cons]
  by_cases h : p.1 = k <;> simp [h]

theorem lookupS_insertS {α : Type} (m : List (String × α)) (k k' : String) (v : α) :
    lookupS (insertS m k v) k' = if k' = k then some v else lookupS m k' := by
  induction m with
  | nil =>
    rw [show insertS ([] : List (String × α)) k v = [(k, v)] from rfl,
      lookupS_cons, lookupS_nil]
    by_cases h : k' = k
    · simp [h]
    · rw [if_neg (fun hk => h hk.symm), if_neg h]
  | cons p t ih =>
    unfold insertS
    by_cases hp : p.1 = k
    · rw [if_pos hp, lookupS_cons, lookupS_cons]
      by_cases h : k' = k
      · simp [h]
      · rw [if_neg (fun hk => h hk.symm), if_neg h, if_neg (by rw [hp]; exact fun hk => h hk.symm)]
    · rw [if_neg hp, lookupS_cons, lookupS_cons, ih]
      by_cases hpk' : p.1 = k'
      · rw [if_pos hpk', if_neg (fun hk => hp (hpk'.trans hk)), if_pos hpk']
      · rw [if_neg hpk', if_neg hpk']

theorem lookupS_eraseS {α : Type} (m : List (String × α)) (k k' : String) :
    lookupS (eraseS m k) k' = if k' = k then none else lookupS m k' := by
  induction m with
  | nil =>
    simp [lookupS, eraseS]
  | cons a t ih =>
    by_cases ha : a.1 = k
    · have he : eraseS (a :: t) k = eraseS t k := by
        simp [eraseS, List.filter_cons, ha]
      rw [he, ih]
      by_cases hk' : k' = k
      · simp [hk']
      · rw [if_neg hk', if_neg hk', lookupS_cons,
          if_neg (by rw [ha]; exact fun h => hk' h.symm)]
    · have he : eraseS (a :: t) k = a :: eraseS t k := by
        simp [eraseS, List.filter_cons, ha]
      rw [he, lookupS_cons, lookupS_cons, ih]
      by_cases hak' : a.1 = k'
      · rw [if_pos hak', if_neg (fun h => ha (hak'.trans h)), if_pos hak']
      · rw [if_neg hak', if_neg hak']

theorem insertS_ne_nil {α : Type} (m : List (String × α)) (k : String) (v : α) :
    insertS m k v ≠ [] := by
  cases m with
  | nil => simp [insertS]
  | cons p t =>
    unfold insertS
    by_cases hp : p.1 = k <;> simp [hp]

/-! ## Helper lemmas about strings and the subject rewriter -/

theorem string_data_ne_nil {s : String} (h : s ≠ "") : s.data ≠ [] := by
  intro hd
  apply h
  cases s with
  | mk d => rw [show d = [] from hd]

theorem string_data_append (s t : String) : (s ++ t).data = s.data ++ t.data :=
  rfl

theorem prefixSubject_of_resolved (cfg : Config) (h : String)
    (hres : cfg.resolveHostname = some h) (s : String) :
    cfg.prefixSubject s = h ++ "." ++ s := by
  unfold Config.prefixSubject
  rw [hres]

theorem stripHostnamePfx_of_resolved (cfg : Config) (h : String)
    (hres : cfg.resolveHostname = some h) (s : String) :
    stripHostnamePfx cfg s =
      (if (h ++ ".").data.length < s.data.length ∧
          s.data.take (h ++ ".").data.length = (h ++ ".").data then
        ⟨s.data.drop (h ++ ".").data.length⟩
      else s) := by
  unfold stripHostnamePfx
  rw [hres]

/-- Shared core of the rewrite round trip: when hostname resolution
succeeds and the declared subject is non-empty (as every validated
endpoint subject is), stripping undoes rewriting. -/
theorem strip_of_prefixSubject (cfg : Config) (h x : String)
    (hres : cfg.resolveHostname = some h) (hx : x ≠ "") :
    stripHostnamePfx cfg (cfg.prefixSubject x) = x := by
  rw [prefixSubject_of_resolved cfg h hres, stripHostnamePfx_of_resolved cfg h hres]
  have hdata : (h ++ "." ++ x).data = (h ++ ".").data ++ x.data := by
    rw [show h ++ "." ++ x = (h ++ ".") ++ x from rfl, string_data_append]
  rw [hdata]
  have hlen : (h ++ ".").data.length < ((h ++ ".").data ++ x.data).length := by
    rw [List.length_append]
    have : 0 < x.data.length := by
      cases hc : x.data with
      | nil => exact absurd hc (string_data_ne_nil hx)
      | cons a t => simp
    omega
  rw [if_pos ⟨hlen, List.take_left _ _⟩, List.drop_left]

/-! ## C4 -/

/-- C4: for every declared subject x (non-empty, as the data model
requires) that is not already host-prefixed, strip(rewrite(x)) = x when
the host identifier resolves, and strip returns any input unchanged when
it does not begin with the host prefix followed by a dot. -/
theorem c4_rewrite_roundtrip (cfg : Config) (h x : String)
    (hres : cfg.resolveHostname = some h) (hx : x ≠ "")
    (_hnp : x.data.take (h ++ ".").data.length ≠ (h ++ ".").data) :
    stripHostnamePfx cfg (cfg.prefixSubject x) = x ∧
    ∀ s : String, s.data.take (h ++ ".").data.length ≠ (h ++ ".").data →
      stripHostnamePfx cfg s = s := by
  refine ⟨strip_of_prefixSubject cfg h x hres hx, ?_⟩
  intro s hs
  rw [stripHostnamePfx_of_resolved cfg h hres]
  rw [if_neg]
  intro hcond
  exact hs hcond.2

/-- Witness for C4 at the host identifier web01 and declared subject
g.hi. -/
theorem c4_witness :
    stripHostnamePfx cfgWeb (cfgWeb.prefixSubject "g.hi") = "g.hi" ∧
    ∀ s : String,
      s.data.take ("web01" ++ ".").data.length ≠ ("web01" ++ ".").data →
      stripHostnamePfx cfgWeb s = s :=
  c4_rewrite_roundtrip cfgWeb "web01" "g.hi" (by decide) (by decide) (by decide)

/-! ## C2 -/

/-- C2: whenever the script process runs to completion before the
context deadline, the execution record has Success true exactly when the
exit code is zero; both captured streams are preserved, no
invocation-level error is reported, and on a non-zero exit the record
carries the exit code with Success false. -/
theorem c2_executeRequest_exit_semantics (c : Ctx)
    (run : String → List Nat → ScriptExec) (subject : String)
    (payload : List Nat) (dur : Nat) (code : Int) (so se : List Nat)
    (hrun : run subject payload = ⟨dur, .exited code so se⟩)
    (hctx : ctxExpires c dur = false) :
    ((executeRequest c run subject payload).1.success = true ↔ code = 0) ∧
    (executeRequest c run subject payload).2 = none ∧
    (executeRequest c run subject payload).1.stdout = so ∧
    (executeRequest c run subject payload).1.stderr = se ∧
    (code ≠ 0 → (executeRequest c run subject payload).1.success = false ∧
      (executeRequest c run subject payload).1.exitCode = code) := by
  simp only [executeRequest, hrun]
  by_cases hc : code = 0 <;> simp [hc, hctx]

/-- Witness for C2 at a script exiting 2 with captured streams. -/
theorem c2_witness :
    ((executeRequest Ctx.background (fun _ _ => ⟨7, .exited 2 [10] [20]⟩)
        "e.sub" [1]).1.success = true ↔ (2 : Int) = 0) ∧
    (executeRequest Ctx.background (fun _ _ => ⟨7, .exited 2 [10] [20]⟩)
        "e.sub" [1]).2 = none ∧
    (executeRequest Ctx.background (fun _ _ => ⟨7, .exited 2 [10] [20]⟩)
        "e.sub" [1]).1.stdout = [10] ∧
    (executeRequest Ctx.background (fun _ _ => ⟨7, .exited 2 [10] [20]⟩)
        "e.sub" [1]).1.stderr = [20] ∧
    ((2 : Int) ≠ 0 →
      (executeRequest Ctx.background (fun _ _ => ⟨7, .exited 2 [10] [20]⟩)
          "e.sub" [1]).1.success = false ∧
      (executeRequest Ctx.background (fun _ _ => ⟨7, .exited 2 [10] [20]⟩)
          "e.sub" [1]).1.exitCode = 2) :=
  c2_executeRequest_exit_semantics Ctx.background
    (fun _ _ => ⟨7, .exited 2 [10] [20]⟩) "e.sub" [1] 7 2 [10] [20] rfl rfl

/-! ## C10 -/

/-- C10: Initialize on a service whose scripts map is empty returns the
no-scripts error and leaves the service (its definition and initialized
flag) unchanged, and an initialization can only succeed when at least
one script has been added. -/
theorem c10_empty_service_init :
    (∀ (cfg : Config) (c : Ctx) (ms : ManagedService), ms.scripts = [] →
      initService cfg c ms = (ms, some .noScripts)) ∧
    (∀ (cfg : Config) (c : Ctx) (ms : ManagedService),
      (initService cfg c ms).2 = none → ms.scripts ≠ []) := by
  constructor
  · intro cfg c ms h
    simp [initService, h]
  · intro cfg c ms h hnil
    simp [initService, hnil] at h

/-- Witness for C10: the fresh service errors out, and the successfully
initialized single-script Sys service has a non-empty scripts map. -/
theorem c10_witness :
    initService cfgWeb Ctx.background ManagedService.new
      = (ManagedService.new, some .noScripts) ∧
    ({ ManagedService.new with scripts := [("facts.sh", factsScript)] }
        : ManagedService).scripts ≠ [] :=
  ⟨c10_empty_service_init.1 cfgWeb Ctx.background ManagedService.new rfl,
   c10_empty_service_init.2 cfgWeb Ctx.background
     { ManagedService.new with scripts := [("facts.sh", factsScript)] } (by decide)⟩

/-! ## C6 -/

/-- Counterexample to C6: HandleRequest creates context.Background()
for the handle invocation, so the invocation has NO finite deadline,
and a script that takes a thousand million milliseconds still produces
its reply bytes instead of a timeout error reply. -/
theorem c6_counterexample :
    (handleRequest cfgWeb [("slow.sh", slowScript)] "web01.slow.s" []).ctx.hasDeadline
        = false ∧
    (handleRequest cfgWeb [("slow.sh", slowScript)] "web01.slow.s" []).response
        = Response.reply [79] := by
  decide

/-- C6 amended: the invoker maps context-deadline expiry to a timeout
error, and describe probes during validity checks run under the
five-second deadline, but the handle invocation performed while serving
a bus request runs under context.Background(), which carries no
deadline. -/
theorem c6_amended_deadline_semantics :
    (∀ (run : String → List Nat → ScriptExec) (subject : String)
       (payload : List Nat) (d dur : Nat) (code : Int) (so se : List Nat),
       run subject payload = ⟨dur, .exited code so se⟩ → d < dur →
       executeRequest (Ctx.withTimeout d) run subject payload
         = (⟨false, so, se, 0⟩, some .timeout)) ∧
    (∀ (cfg : Config) (scripts : List (String × Script)) (subject : String)
       (payload : List Nat),
       (handleRequest cfg scripts subject payload).ctx = Ctx.background) ∧
    (∀ e : FileEntry, isValidScript e = true →
       (getServiceDefinition (Ctx.withTimeout describeDeadlineMs) e.script).isSome
         = true) := by
  refine ⟨?_, ?_, ?_⟩
  · intro run subject payload d dur code so se hrun hd
    simp only [executeRequest, hrun]
    simp [ctxExpires, hd]
  · intro cfg scripts subject payload
    unfold handleRequest
    rcases hf : findScript cfg Ctx.background scripts subject with _ | ps
    · rfl
    · rcases ps with ⟨path, sc⟩
      simp only []
      rcases (executeRequest Ctx.background sc.run
          (stripHostnamePfx cfg subject) payload).2 with _ | e
      · by_cases hs :
          (executeRequest Ctx.background sc.run
            (stripHostnamePfx cfg subject) payload).1.success <;> simp [hs]
      · rfl
  · intro e h
    unfold isValidScript at h
    simp only [Bool.and_eq_true] at h
    exact h.2

/-- Witness for C6 amended: a five-millisecond deadline expires during a
seven-millisecond run, every HandleRequest context is Background, and a
valid entry probes within the describe deadline. -/
theorem c6_witness :
    executeRequest (Ctx.withTimeout 5) (fun _ _ => ⟨7, .exited 0 [1] [2]⟩)
        "s" [] = (⟨false, [1], [2], 0⟩, some .timeout) ∧
    (handleRequest cfgWeb [] "x" []).ctx = Ctx.background ∧
    (getServiceDefinition (Ctx.withTimeout describeDeadlineMs)
        factsScript).isSome = true :=
  ⟨c6_amended_deadline_semantics.1 (fun _ _ => ⟨7, .exited 0 [1] [2]⟩)
      "s" [] 5 7 0 [1] [2] rfl (by decide),
   c6_amended_deadline_semantics.2.1 cfgWeb [] "x" [],
   c6_amended_deadline_semantics.2.2 ⟨"f.sh", 0, false, 0o755, factsScript⟩
     (by decide)⟩

/-! ## C8 -/

/-- Counterexample to C8: after restarting a.sh whose re-probed
descriptor now declares the service name New, the script-to-service
index still maps a.sh to Old, no service named New exists, and the
entry under the key Old carries the re-probed definition named New: the
restart is NOT treated as a removal plus an addition under the new
name. -/
theorem c8_counterexample :
    lookupS (restartServiceGracefully cfgWeb stOld "a.sh").1.scriptToService "a.sh"
        = some "Old" ∧
    (lookupS (restartServiceGracefully cfgWeb stOld "a.sh").1.services "New").isSome
        = false ∧
    ((lookupS (restartServiceGracefully cfgWeb stOld "a.sh").1.services "Old").map
        (fun s => s.definition.name)) = some "New" := by
  refine ⟨?_, ?_, ?_⟩ <;> rfl

/-- C8 amended: restart stops the owning service, re-initializes it by
re-probing every member script under the ten-second deadline, and
re-attaches the result under its PREVIOUS service-name key; the
script-to-service index is unchanged and the services map keys are
unchanged even when the re-probed definition carries a different name. -/
theorem c8_amended_restart_keeps_key (cfg : Config) (st : ManagerState)
    (path name : String) (svc : ManagedService)
    (hidx : lookupS st.scriptToService path = some name)
    (hsvc : lookupS st.services name = some svc) :
    (restartServiceGracefully cfg st path).1.scriptToService
        = st.scriptToService ∧
    lookupS (restartServiceGracefully cfg st path).1.services name
        = some ((initService cfg (Ctx.withTimeout restartDeadlineMs) svc).1) ∧
    (∀ n, n ≠ name →
      lookupS (restartServiceGracefully cfg st path).1.services n
        = lookupS st.services n) := by
  have hred : restartServiceGracefully cfg st path =
      ({ services := insertS st.services name
           (initService cfg (Ctx.withTimeout restartDeadlineMs) svc).1
         scriptToService := st.scriptToService },
       ((initService cfg (Ctx.withTimeout restartDeadlineMs) svc).2).map
         (fun _ => MgrError.initFailed)) := by
    unfold restartServiceGracefully
    simp only [hidx, hsvc]
  rw [hred]
  refine ⟨rfl, ?_, ?_⟩
  · rw [lookupS_insertS, if_pos rfl]
  · intro n hn
    rw [lookupS_insertS, if_neg hn]

/-- Witness for C8 amended at the concrete renamed-script state. -/
theorem c8_witness :
    (restartServiceGracefully cfgWeb stOld "a.sh").1.scriptToService
        = stOld.scriptToService ∧
    lookupS (restartServiceGracefully cfgWeb stOld "a.sh").1.services "Old"
        = some ((initService cfgWeb (Ctx.withTimeout restartDeadlineMs)
            { scripts := [("a.sh", renamedScript)]
              definition := ⟨"Old", "1", "", [⟨"E", "web01.e.sub"⟩]⟩
              initialized := true }).1) ∧
    (∀ n, n ≠ "Old" →
      lookupS (restartServiceGracefully cfgWeb stOld "a.sh").1.services n
        = lookupS stOld.services n) :=
  c8_amended_restart_keeps_key cfgWeb stOld "a.sh" "Old"
    { scripts := [("a.sh", renamedScript)]
      definition := ⟨"Old", "1", "", [⟨"E", "web01.e.sub"⟩]⟩
      initialized := true } rfl rfl

/-! ## C1 -/

theorem find?_of_filter_singleton {α : Type} (p : α → Bool) :
    ∀ (l : List α) (a : α), l.filter p = [a] → l.find? p = some a := by
  intro l
  induction l with
  | nil =>
    intro a h
    simp at h
  | cons x xs ih =>
    intro a h
    by_cases hx : p x
    · rw [List.filter_cons_of_pos hx] at h
      rw [List.find?_cons_of_pos _ hx]
      exact congrArg some (List.cons_eq_cons.mp h).1
    · rw [List.filter_cons_of_neg (by simpa using hx)] at h
      rw [List.find?_cons_of_neg _ (by simpa using hx)]
      exact ih a h

theorem findScript_eq (cfg : Config) (c : Ctx) (scripts : List (String × Script))
    (subject : String) (hc : c = Ctx.background) :
    findScript cfg c scripts subject
      = scripts.find? (claimsSubject cfg subject) := by
  subst hc
  rfl

/-- C1: when exactly one script of the service claims the rewritten
request subject (prefix of the declared subject x), HandleRequest
invokes that script with exactly one argument, the declared subject x,
writes the request payload to its standard input, and, the script
exiting 0, replies with its standard output byte for byte. -/
theorem c1_request_dispatch (cfg : Config) (scripts : List (String × Script))
    (h x : String) (payload so se : List Nat) (p : String) (sc : Script)
    (dur : Nat)
    (hres : cfg.resolveHostname = some h) (hx : x ≠ "")
    (hone : scripts.filter (claimsSubject cfg (cfg.prefixSubject x)) = [(p, sc)])
    (hrun : sc.run x payload = ⟨dur, .exited 0 so se⟩) :
    handleRequest cfg scripts (cfg.prefixSubject x) payload
      = ⟨Ctx.background, some ⟨p, [x], payload⟩, .reply so⟩ := by
  have hfind : findScript cfg Ctx.background scripts (cfg.prefixSubject x)
      = some (p, sc) := by
    rw [findScript_eq cfg Ctx.background scripts (cfg.prefixSubject x) rfl]
    exact find?_of_filter_singleton _ scripts (p, sc) hone
  have hstrip : stripHostnamePfx cfg (cfg.prefixSubject x) = x :=
    strip_of_prefixSubject cfg h x hres hx
  unfold handleRequest
  rw [hfind]
  simp only [hstrip]
  simp [executeRequest, hrun, ctxExpires]

/-- Witness for C1: a request to web01.g.hi with payload byte 110 is
delivered to greet.sh with argv g.hi and that payload on stdin, and its
stdout comes back verbatim. -/
theorem c1_witness :
    handleRequest cfgWeb [("greet.sh", greetScript)]
        (cfgWeb.prefixSubject "g.hi") [110]
      = ⟨Ctx.background, some ⟨"greet.sh", ["g.hi"], [110]⟩, .reply [72, 105]⟩ :=
  c1_request_dispatch cfgWeb [("greet.sh", greetScript)] "web01" "g.hi"
    [110] [72, 105] [] "greet.sh" greetScript 3 rfl (by decide) rfl rfl

/-! ## C5 -/

/-- Counterexample to C5: Go gives no iteration order guarantee on the
scripts map, and both HandleRequest and Initialize iterate that map, so
the run in which the map {facts.sh, dup.sh} is iterated dup.sh first is
a legal execution; in it the request to web01.sys.facts is routed to
dup.sh (reply byte 68), not to facts.sh, the first writer. -/
theorem c5_counterexample :
    svcSys.scripts.map Prod.fst = ["facts.sh", "dup.sh"] ∧
    (handleRequest cfgWeb [("dup.sh", envSys "dup.sh"), ("facts.sh", envSys "facts.sh")]
        "web01.sys.facts" []).invoked = some ⟨"dup.sh", ["sys.facts"], []⟩ ∧
    (handleRequest cfgWeb [("dup.sh", envSys "dup.sh"), ("facts.sh", envSys "facts.sh")]
        "web01.sys.facts" []).response = Response.reply [68] := by
  refine ⟨?_, ?_, ?_⟩ <;> decide

/-- C5 amended: after dup.sh joins, it stays admitted (indexed under Sys
and present in the scripts map) and the merge keeps exactly one endpoint
on the duplicated rewritten subject, but which claimant survives the
merge and receives requests depends on the unspecified map iteration
order: under the insertion order facts.sh wins, under the reversed
order dup.sh wins. -/
theorem c5_amended_first_in_iteration_wins :
    lookupS stSys.scriptToService "dup.sh" = some "Sys" ∧
    svcSys.scripts.map Prod.fst = ["facts.sh", "dup.sh"] ∧
    svcSys.definition.endpoints = [⟨"Facts", "web01.sys.facts"⟩] ∧
    (initService cfgWeb Ctx.background
        { svcSys with scripts := svcSys.scripts.reverse }).1.definition.endpoints
      = [⟨"Facts2", "web01.sys.facts"⟩] ∧
    (handleRequest cfgWeb svcSys.scripts "web01.sys.facts" []).invoked
      = some ⟨"facts.sh", ["sys.facts"], []⟩ := by
  refine ⟨?_, ?_, ?_, ?_, ?_⟩ <;> decide

/-! ## Branch equations of the manager operations -/

theorem addService_already (cfg : Config) (env : String → Script)
    (st : ManagerState) (path name0 : String)
    (h1 : lookupS st.scriptToService path = some name0) :
    addService cfg env st path = (st, none) := by
  unfold addService
  simp only [h1]

theorem addService_probe_none (cfg : Config) (env : String → Script)
    (st : ManagerState) (path : String)
    (h1 : lookupS st.scriptToService path = none)
    (h2 : getServiceDefinition Ctx.background (env path) = none) :
    addService cfg env st path = (st, some .probeFailed) := by
  unfold addService
  simp only [h1, h2]

theorem addService_grouped (cfg : Config) (env : String → Script)
    (st : ManagerState) (path : String) (d : ServiceDefinition)
    (svc : ManagedService)
    (h1 : lookupS st.scriptToService path = none)
    (h2 : getServiceDefinition Ctx.background (env path) = some d)
    (h3 : lookupS st.services d.name = some svc) :
    addService cfg env st path =
      ({ services := insertS st.services d.name
           (initService cfg Ctx.background
             { svc with scripts := insertS svc.scripts path (env path) }).1,
         scriptToService := insertS st.scriptToService path d.name },
       ((initService cfg Ctx.background
           { svc with scripts := insertS svc.scripts path (env path) }).2).map
         (fun _ => MgrError.initFailed)) := by
  unfold addService
  simp only [h1, h2, h3]

theorem addService_new_ok (cfg : Config) (env : String → Script)
    (st : ManagerState) (path : String) (d : ServiceDefinition)
    (h1 : lookupS st.scriptToService path = none)
    (h2 : getServiceDefinition Ctx.background (env path) = some d)
    (h3 : lookupS st.services d.name = none)
    (h4 : (initService cfg Ctx.background
        { ManagedService.new with scripts := insertS [] path (env path) }).2
        = none) :
    addService cfg env st path =
      ({ services := insertS st.services d.name
           (initService cfg Ctx.background
             { ManagedService.new with scripts := insertS [] path (env path) }).1,
         scriptToService := insertS st.scriptToService path d.name },
       none) := by
  unfold addService
  simp only [h1, h2, h3, h4]

theorem addService_new_err (cfg : Config) (env : String → Script)
    (st : ManagerState) (path : String) (d : ServiceDefinition)
    (e : InitError)
    (h1 : lookupS st.scriptToService path = none)
    (h2 : getServiceDefinition Ctx.background (env path) = some d)
    (h3 : lookupS st.services d.name = none)
    (h4 : (initService cfg Ctx.background
        { ManagedService.new with scripts := insertS [] path (env path) }).2
        = some e) :
    addService cfg env st path = (st, some .initFailed) := by
  unfold addService
  simp only [h1, h2, h3, h4]

theorem removeService_untracked (cfg : Config) (st : ManagerState)
    (path : String) (h1 : lookupS st.scriptToService path = none) :
    removeService cfg st path = (st, none) := by
  unfold removeService
  simp only [h1]

theorem removeService_orphan (cfg : Config) (st : ManagerState)
    (path name0 : String)
    (h1 : lookupS st.scriptToService path = some name0)
    (h2 : lookupS st.services name0 = none) :
    removeService cfg st path =
      ({ st with scriptToService := eraseS st.scriptToService path }, none) := by
  unfold removeService
  simp only [h1, h2]

theorem removeService_last (cfg : Config) (st : ManagerState)
    (path name0 : String) (svc : ManagedService)
    (h1 : lookupS st.scriptToService path = some name0)
    (h2 : lookupS st.services name0 = some svc)
    (h3 : (eraseS svc.scripts path).isEmpty = true) :
    removeService cfg st path =
      ({ services := eraseS st.services name0,
         scriptToService := eraseS st.scriptToService path }, none) := by
  unfold removeService
  simp only [h1, h2, h3]
  rfl

theorem removeService_remain (cfg : Config) (st : ManagerState)
    (path name0 : String) (svc : ManagedService)
    (h1 : lookupS st.scriptToService path = some name0)
    (h2 : lookupS st.services name0 = some svc)
    (h3 : (eraseS svc.scripts path).isEmpty = false) :
    removeService cfg st path =
      ({ services := insertS st.services name0
           (initService cfg Ctx.background
             { svc with scripts := eraseS svc.scripts path }).1,
         scriptToService := eraseS st.scriptToService path }, none) := by
  unfold removeService
  simp only [h1, h2, h3]
  rfl

/-! ## C9 -/

/-- Initialize never touches the scripts map of the service. -/
theorem initService_scripts (cfg : Config) (c : Ctx) (ms : ManagedService) :
    ((initService cfg c ms).1).scripts = ms.scripts := by
  unfold initService
  rcases hs : ms.scripts with _ | ⟨⟨q, first⟩, rest⟩
  · exact hs
  · rcases hd : getServiceDefinition c first with _ | d0
    · simp only [hd]
      exact hs
    · simp only [hd]

/-- C9: both the admission operation and the removal operation preserve
the invariant that no Managed Service in the services map has zero
scripts: a newly inserted service holds the admitted script, a grouped
service only grows, and a service whose last script was removed is
dropped from the map in the same operation. -/
theorem c9_no_empty_service (cfg : Config) (env : String → Script)
    (st : ManagerState) (path : String) (h : NoEmptyServices st) :
    NoEmptyServices (addService cfg env st path).1 ∧
    NoEmptyServices (removeService cfg st path).1 := by
  constructor
  · rcases h1 : lookupS st.scriptToService path with _ | name0
    · rcases h2 : getServiceDefinition Ctx.background (env path) with _ | d
      · rw [addService_probe_none cfg env st path h1 h2]
        exact h
      · rcases h3 : lookupS st.services d.name with _ | svc
        · rcases h4 : (initService cfg Ctx.background
              { ManagedService.new with scripts := insertS [] path (env path) }).2
            with _ | e
          · rw [addService_new_ok cfg env st path d h1 h2 h3 h4]
            intro n s hlk
            simp only [] at hlk
            rw [lookupS_insertS] at hlk
            by_cases hn : n = d.name
            · rw [if_pos hn] at hlk
              have hs : s = (initService cfg Ctx.background
                  { ManagedService.new with
                    scripts := insertS [] path (env path) }).1 :=
                (Option.some_inj.mp hlk).symm
              rw [hs, initService_scripts]
              exact insertS_ne_nil _ _ _
            · rw [if_neg hn] at hlk
              exact h n s hlk
          · rw [addService_new_err cfg env st path d e h1 h2 h3 h4]
            exact h
        · rw [addService_grouped cfg env st path d svc h1 h2 h3]
          intro n s hlk
          simp only [] at hlk
          rw [lookupS_insertS] at hlk
          by_cases hn : n = d.name
          · rw [if_pos hn] at hlk
            have hs : s = (initService cfg Ctx.background
                { svc with scripts := insertS svc.scripts path (env path) }).1 :=
              (Option.some_inj.mp hlk).symm
            rw [hs, initService_scripts]
            exact insertS_ne_nil _ _ _
          · rw [if_neg hn] at hlk
            exact h n s hlk
    · rw [addService_already cfg env st path name0 h1]
      exact h
  · rcases h1 : lookupS st.scriptToService path with _ | name0
    · rw [removeService_untracked cfg st path h1]
      exact h
    · rcases h2 : lookupS st.services name0 with _ | svc
      · rw [removeService_orphan cfg st path name0 h1 h2]
        exact h
      · rcases h3 : (eraseS svc.scripts path).isEmpty with _ | _
        · rw [removeService_remain cfg st path name0 svc h1 h2 h3]
          intro n s hlk
          simp only [] at hlk
          rw [lookupS_insertS] at hlk
          by_cases hn : n = name0
          · rw [if_pos hn] at hlk
            have hs : s = (initService cfg Ctx.background
                { svc with scripts := eraseS svc.scripts path }).1 :=
              (Option.some_inj.mp hlk).symm
            rw [hs, initService_scripts]
            intro hnil
            rw [show eraseS svc.scripts path = [] from hnil] at h3
            simp at h3
          · rw [if_neg hn] at hlk
            exact h n s hlk
        · rw [removeService_last cfg st path name0 svc h1 h2 h3]
          intro n s hlk
          simp only [] at hlk
          rw [lookupS_eraseS] at hlk
          by_cases hn : n = name0
          · rw [if_pos hn] at hlk
            cases hlk
          · rw [if_neg hn] at hlk
            exact h n s hlk

/-- Witness for C9 starting from the empty manager state (which has no
services at all). -/
theorem c9_witness :
    NoEmptyServices (addService cfgWeb envSys ManagerState.empty "facts.sh").1 ∧
    NoEmptyServices (removeService cfgWeb ManagerState.empty "facts.sh").1 :=
  c9_no_empty_service cfgWeb envSys ManagerState.empty "facts.sh"
    (fun name svc hlk => by simp [lookupS, ManagerState.empty] at hlk)

/-! ## C3 -/

theorem validChar_not_space (c : Char) (h : validSubjectChar c = true) :
    isGoSpace c = false := by
  unfold validSubjectChar at h
  unfold isGoSpace
  simp only [Bool.or_eq_true, Bool.and_eq_true, decide_eq_true_eq, beq_iff_eq] at h
  simp only [Bool.or_eq_false_iff, beq_eq_false_iff_ne, ne_eq]
  omega

theorem dropWhile_eq_self_of (p : Char → Bool) (l : List Char)
    (h : ∀ c ∈ l, p c = false) : l.dropWhile p = l := by
  cases l with
  | nil => rfl
  | cons a t => simp [List.dropWhile_cons, h a (List.mem_cons_self a t)]

theorem trimSpace_eq_self (s : String)
    (h : s.data.all validSubjectChar = true) : trimSpace s = s := by
  have hns : ∀ c ∈ s.data, isGoSpace c = false := fun c hc =>
    validChar_not_space c (by
      have := List.all_eq_true.mp h c hc
      simpa using this)
  unfold trimSpace
  rw [dropWhile_eq_self_of _ _ hns,
    dropWhile_eq_self_of _ _ (fun c hc => hns c (List.mem_reverse.mp hc)),
    List.reverse_reverse]

theorem string_eq_empty_iff (s : String) : s = "" ↔ s.data = [] := by
  constructor
  · intro h
    rw [h]
  · intro h
    cases s with
    | mk d => rw [show d = [] from h]

theorem validSubjectString_iff (s : String) :
    validSubjectString s = true ↔
      s.data ≠ [] ∧ s.data.all validSubjectChar = true := by
  unfold validSubjectString
  simp [List.isEmpty_iff]

theorem endpoint_validate_none_iff (e : Endpoint) :
    e.validate = none ↔
      (trimSpace e.name ≠ "" ∧ e.subject ≠ "" ∧
       e.subject.data.all validSubjectChar = true) := by
  unfold Endpoint.validate
  by_cases h1 : trimSpace e.name = ""
  · simp [h1]
  · rw [if_neg h1]
    by_cases h2 : trimSpace e.subject = ""
    · rw [if_pos h2]
      constructor
      · intro h
        cases h
      · rintro ⟨_, hs, hall⟩
        rw [trimSpace_eq_self e.subject hall] at h2
        exact absurd h2 hs
    · rw [if_neg h2]
      by_cases h3 : validSubjectString e.subject
      · rw [show (!validSubjectString e.subject) = false from by rw [h3]; rfl,
          if_neg (by simp)]
        obtain ⟨hne, hall⟩ := (validSubjectString_iff e.subject).mp h3
        exact iff_of_true rfl
          ⟨h1, fun h => hne ((string_eq_empty_iff e.subject).mp h), hall⟩
      · rw [show (!validSubjectString e.subject) = true from by
            rw [Bool.eq_false_iff.mpr h3]; rfl,
          if_pos rfl]
        constructor
        · intro h
          cases h
        · rintro ⟨_, hs, hall⟩
          exfalso
          apply h3
          exact (validSubjectString_iff e.subject).mpr
            ⟨fun h => hs ((string_eq_empty_iff e.subject).mpr h), hall⟩

theorem validateEndpointList_none_iff :
    ∀ (l : List Endpoint) (i : Nat) (names subjects : List String),
      validateEndpointList l i names subjects = none ↔
        ((∀ e ∈ l, e.validate = none) ∧
         (l.map Endpoint.name).Nodup ∧ (l.map Endpoint.subject).Nodup ∧
         (∀ e ∈ l, e.name ∉ names) ∧ (∀ e ∈ l, e.subject ∉ subjects)) := by
  intro l
  induction l with
  | nil =>
    intro i names subjects
    simp [validateEndpointList]
  | cons e rest ih =>
    intro i names subjects
    rcases hv : e.validate with _ | err
    · by_cases hn : e.name ∈ names
      · have hL : validateEndpointList (e :: rest) i names subjects
            = some (.duplicateEndpointName e.name) := by
          unfold validateEndpointList
          simp only [hv]
          rw [if_pos hn]
        rw [hL]
        constructor
        · intro h
          cases h
        · rintro ⟨_, _, _, h4, _⟩
          exact absurd hn (h4 e (List.mem_cons_self e rest))
      · by_cases hs : e.subject ∈ subjects
        · have hL : validateEndpointList (e :: rest) i names subjects
              = some (.duplicateEndpointSubject e.subject) := by
            unfold validateEndpointList
            simp only [hv]
            rw [if_neg hn, if_pos hs]
          rw [hL]
          constructor
          · intro h
            cases h
          · rintro ⟨_, _, _, _, h5⟩
            exact absurd hs (h5 e (List.mem_cons_self e rest))
        · have hL : validateEndpointList (e :: rest) i names subjects
              = validateEndpointList rest (i + 1) (e.name :: names)
                  (e.subject :: subjects) := by
            conv_lhs => rw [validateEndpointList]
            simp only [hv]
            rw [if_neg hn, if_neg hs]
          rw [hL, ih]
          constructor
          · rintro ⟨h1, h2, h3, h4, h5⟩
            refine ⟨?_, ?_, ?_, ?_, ?_⟩
            · intro a ha
              rcases List.mem_cons.mp ha with heq | hm
              · rw [heq]
                exact hv
              · exact h1 a hm
            · rw [List.map_cons, List.nodup_cons]
              refine ⟨?_, h2⟩
              intro hmem
              obtain ⟨a, ha, hfa⟩ := List.mem_map.mp hmem
              exact (h4 a ha) (by rw [hfa]; exact List.mem_cons_self _ _)
            · rw [List.map_cons, List.nodup_cons]
              refine ⟨?_, h3⟩
              intro hmem
              obtain ⟨a, ha, hfa⟩ := List.mem_map.mp hmem
              exact (h5 a ha) (by rw [hfa]; exact List.mem_cons_self _ _)
            · intro a ha
              rcases List.mem_cons.mp ha with heq | hm
              · rw [heq]
                exact hn
              · intro hmem
                exact (h4 a hm) (List.mem_cons_of_mem _ hmem)
            · intro a ha
              rcases List.mem_cons.mp ha with heq | hm
              · rw [heq]
                exact hs
              · intro hmem
                exact (h5 a hm) (List.mem_cons_of_mem _ hmem)
          · rintro ⟨h1, h2, h3, h4, h5⟩
            rw [List.map_cons, List.nodup_cons] at h2 h3
            refine ⟨?_, h2.2, h3.2, ?_, ?_⟩
            · intro a ha
              exact h1 a (List.mem_cons_of_mem _ ha)
            · intro a ha hmem
              rcases List.mem_cons.mp hmem with heq | hmn
              · exact h2.1 (List.mem_map.mpr ⟨a, ha, heq⟩)
              · exact (h4 a (List.mem_cons_of_mem _ ha)) hmn
            · intro a ha hmem
              rcases List.mem_cons.mp hmem with heq | hmn
              · exact h3.1 (List.mem_map.mpr ⟨a, ha, heq⟩)
              · exact (h5 a (List.mem_cons_of_mem _ ha)) hmn
    · have hL : validateEndpointList (e :: rest) i names subjects
          = some (.invalidEndpoint i err) := by
        unfold validateEndpointList
        simp only [hv]
      rw [hL]
      constructor
      · intro h
        cases h
      · rintro ⟨hall, _⟩
        have := hall e (List.mem_cons_self e rest)
        rw [hv] at this
        cases this

/-- C3: validation succeeds exactly when the trimmed service name is
non-empty, the endpoint list is non-empty, every endpoint has a
non-empty trimmed name and a non-empty subject over the allowed
character set, and no two endpoints share a name or a subject; every
failure is reported through one of the distinct constructors of
DefinitionError. -/
theorem c3_validate_characterization (sd : ServiceDefinition) :
    sd.validate = none ↔
      (trimSpace sd.name ≠ "" ∧ sd.endpoints ≠ [] ∧
       (∀ e ∈ sd.endpoints, trimSpace e.name ≠ "" ∧ e.subject ≠ "" ∧
         e.subject.data.all validSubjectChar = true) ∧
       (sd.endpoints.map Endpoint.name).Nodup ∧
       (sd.endpoints.map Endpoint.subject).Nodup) := by
  unfold ServiceDefinition.validate
  by_cases h1 : trimSpace sd.name = ""
  · simp [h1]
  · rw [if_neg h1]
    by_cases h2 : sd.endpoints.isEmpty
    · rw [if_pos h2]
      have hnil : sd.endpoints = [] := by
        cases he : sd.endpoints with
        | nil => rfl
        | cons a t =>
          rw [he] at h2
          simp at h2
      constructor
      · intro h
        cases h
      · rintro ⟨_, hne, _⟩
        exact absurd hnil hne
    · rw [if_neg h2]
      have hne : sd.endpoints ≠ [] := by
        intro h
        rw [h] at h2
        exact h2 rfl
      rw [validateEndpointList_none_iff]
      constructor
      · rintro ⟨ha, hb, hc, _, _⟩
        refine ⟨h1, hne, ?_, hb, hc⟩
        intro e he
        exact (endpoint_validate_none_iff e).mp (ha e he)
      · rintro ⟨_, _, hval, hb, hc⟩
        refine ⟨?_, hb, hc, ?_, ?_⟩
        · intro e he
          exact (endpoint_validate_none_iff e).mpr (hval e he)
        · intro e _
          exact List.not_mem_nil _
        · intro e _
          exact List.not_mem_nil _

/-! ## C7 -/

theorem getServiceDefinition_background (s : Script) :
    getServiceDefinition Ctx.background s = s.info :=
  rfl

theorem valid_probe_background (e : FileEntry) (h : isValidScript e = true) :
    (getServiceDefinition Ctx.background e.script).isSome = true := by
  have h3 : (getServiceDefinition (Ctx.withTimeout describeDeadlineMs)
      e.script).isSome = true := by
    unfold isValidScript at h
    simp only [Bool.and_eq_true] at h
    exact h.2
  rw [getServiceDefinition_background]
  unfold getServiceDefinition at h3
  by_cases hx : ctxExpires (Ctx.withTimeout describeDeadlineMs) e.script.infoDurationMs
  · rw [if_pos hx] at h3
    simp at h3
  · rw [if_neg hx] at h3
    exact h3

theorem addService_sts_other (cfg : Config) (env : String → Script)
    (st : ManagerState) (path q : String) (hq : q ≠ path) :
    lookupS (addService cfg env st path).1.scriptToService q
      = lookupS st.scriptToService q := by
  rcases h1 : lookupS st.scriptToService path with _ | name0
  · rcases h2 : getServiceDefinition Ctx.background (env path) with _ | d
    · rw [addService_probe_none cfg env st path h1 h2]
    · rcases h3 : lookupS st.services d.name with _ | svc
      · rcases h4 : (initService cfg Ctx.background
            { ManagedService.new with scripts := insertS [] path (env path) }).2
          with _ | e
        · rw [addService_new_ok cfg env st path d h1 h2 h3 h4]
          simp only []
          rw [lookupS_insertS, if_neg hq]
        · rw [addService_new_err cfg env st path d e h1 h2 h3 h4]
      · rw [addService_grouped cfg env st path d svc h1 h2 h3]
        simp only []
        rw [lookupS_insertS, if_neg hq]
  · rw [addService_already cfg env st path name0 h1]

theorem addService_sts_mem (cfg : Config) (env : String → Script)
    (st : ManagerState) (path : String)
    (h : (getServiceDefinition Ctx.background (env path)).isSome = true) :
    (lookupS (addService cfg env st path).1.scriptToService path).isSome
      = true := by
  rcases h1 : lookupS st.scriptToService path with _ | name0
  · obtain ⟨d, hd⟩ := Option.isSome_iff_exists.mp h
    rcases h3 : lookupS st.services d.name with _ | svc
    · have h4 : (initService cfg Ctx.background
          { ManagedService.new with scripts := insertS [] path (env path) }).2
          = none := by
        have hscripts : ({ ManagedService.new with
            scripts := insertS [] path (env path) } : ManagedService).scripts
            = [(path, env path)] := rfl
        unfold initService
        rw [hscripts]
        simp only [hd]
      rw [addService_new_ok cfg env st path d h1 hd h3 h4]
      simp only []
      rw [lookupS_insertS, if_pos rfl]
      rfl
    · rw [addService_grouped cfg env st path d svc h1 hd h3]
      simp only []
      rw [lookupS_insertS, if_pos rfl]
      rfl
  · rw [addService_already cfg env st path name0 h1]
    rw [h1]
    rfl

theorem envOf_eq (fs : List FileEntry)
    (hnd : (fs.map FileEntry.path).Nodup) :
    ∀ e ∈ fs, envOf fs e.path = e.script := by
  induction fs with
  | nil =>
    intro e he
    cases he
  | cons x rest ih =>
    intro e he
    rw [List.map_cons, List.nodup_cons] at hnd
    rcases List.mem_cons.mp he with heq | hm
    · rw [heq]
      unfold envOf
      rw [List.find?_cons_of_pos _ (by simp)]
    · have hne : x.path ≠ e.path := by
        intro hcontra
        exact hnd.1 (List.mem_map.mpr ⟨e, hm, hcontra.symm⟩)
      have : envOf (x :: rest) e.path = envOf rest e.path := by
        unfold envOf
        rw [List.find?_cons_of_neg _ (by simpa using hne)]
      rw [this]
      exact ih hnd.2 e hm

theorem discoverGo_admits (cfg : Config) (env : String → Script) (p : String) :
    ∀ (entries : List FileEntry) (st : ManagerState),
      (∀ e ∈ entries, env e.path = e.script) →
      ((lookupS (discoverGo cfg env entries st).scriptToService p).isSome = true ↔
        ((lookupS st.scriptToService p).isSome = true ∨
         ∃ e ∈ entries, e.path = p ∧ e.isDir = false ∧ isValidScript e = true)) := by
  intro entries
  induction entries with
  | nil =>
    intro st _
    simp [discoverGo]
  | cons e rest ih =>
    intro st hagree
    have hagree' : ∀ a ∈ rest, env a.path = a.script := fun a ha =>
      hagree a (List.mem_cons_of_mem _ ha)
    by_cases hdir : e.isDir = true
    · rw [show discoverGo cfg env (e :: rest) st = discoverGo cfg env rest st from
        by simp [discoverGo, hdir]]
      rw [ih st hagree']
      constructor
      · rintro (h | ⟨a, ha, hcond⟩)
        · exact Or.inl h
        · exact Or.inr ⟨a, List.mem_cons_of_mem _ ha, hcond⟩
      · rintro (h | ⟨a, ha, hcond⟩)
        · exact Or.inl h
        · rcases List.mem_cons.mp ha with heq | hm
          · exfalso
            rw [heq] at hcond
            rw [hcond.2.1] at hdir
            simp at hdir
          · exact Or.inr ⟨a, hm, hcond⟩
    · have hdirF : e.isDir = false := by
        cases hb : e.isDir
        · rfl
        · exact absurd hb hdir
      by_cases hval : isValidScript e = true
      · rw [show discoverGo cfg env (e :: rest) st
            = discoverGo cfg env rest (addService cfg env st e.path).1 from
          by simp [discoverGo, hdirF, hval]]
        rw [ih _ hagree']
        have hprobe : (getServiceDefinition Ctx.background (env e.path)).isSome
            = true := by
          rw [hagree e (List.mem_cons_self e rest)]
          exact valid_probe_background e hval
        constructor
        · rintro (h | ⟨a, ha, hcond⟩)
          · by_cases hp : p = e.path
            · exact Or.inr ⟨e, List.mem_cons_self e rest, hp.symm, hdirF, hval⟩
            · rw [addService_sts_other cfg env st e.path p hp] at h
              exact Or.inl h
          · exact Or.inr ⟨a, List.mem_cons_of_mem _ ha, hcond⟩
        · rintro (h | ⟨a, ha, hpa, hdira, hvala⟩)
          · by_cases hp : p = e.path
            · rw [hp]
              exact Or.inl (addService_sts_mem cfg env st e.path hprobe)
            · rw [← addService_sts_other cfg env st e.path p hp] at h
              exact Or.inl h
          · rcases List.mem_cons.mp ha with heq | hm
            · rw [show p = e.path from by rw [← hpa, heq]]
              exact Or.inl (addService_sts_mem cfg env st e.path hprobe)
            · exact Or.inr ⟨a, hm, hpa, hdira, hvala⟩
      · rw [show discoverGo cfg env (e :: rest) st = discoverGo cfg env rest st from
          by simp [discoverGo, hdirF, hval]]
        rw [ih st hagree']
        constructor
        · rintro (h | ⟨a, ha, hcond⟩)
          · exact Or.inl h
          · exact Or.inr ⟨a, List.mem_cons_of_mem _ ha, hcond⟩
        · rintro (h | ⟨a, ha, hcond⟩)
          · exact Or.inl h
          · rcases List.mem_cons.mp ha with heq | hm
            · exfalso
              rw [heq] at hcond
              exact hval hcond.2.2
            · exact Or.inr ⟨a, hm, hcond⟩

/-- C7 amended: startup discovery over the filepath.Walk sequence of the
scripts directory admits exactly the files, at ANY depth below the
directory (the walk is recursive), that satisfy the validity predicate:
name ending in .sh, an executable permission bit set, and a describe
probe succeeding within the five-second deadline. -/
theorem c7_discovery_admits_valid (cfg : Config) (fs : List FileEntry)
    (hnd : (fs.map FileEntry.path).Nodup) (p : String) :
    (lookupS (discoverServices cfg fs ManagerState.empty).scriptToService p).isSome
        = true ↔
      ∃ e ∈ fs, e.path = p ∧ e.isDir = false ∧ isValidScript e = true := by
  unfold discoverServices
  rw [discoverGo_admits cfg (envOf fs) p fs ManagerState.empty (envOf_eq fs hnd)]
  have hemp : (lookupS ManagerState.empty.scriptToService p).isSome = false := rfl
  rw [hemp]
  simp

/-- Counterexample to C7: the startup walk (filepath.Walk) is recursive,
so a valid script living one directory below the configured scripts
directory is admitted, while a non-recursive walk of the directory would
admit only files at depth zero. -/
theorem c7_counterexample :
    (fsNested.all (fun e => e.depth != 0)) = true ∧
    (lookupS (discoverServices cfgWeb fsNested
        ManagerState.empty).scriptToService "sub/x.sh").isSome = true := by
  refine ⟨?_, ?_⟩ <;> decide

/-- Witness for C7 amended at a one-file directory containing greet.sh. -/
theorem c7_witness :
    (lookupS (discoverServices cfgWeb fsGreet
        ManagerState.empty).scriptToService "greet.sh").isSome = true ↔
      ∃ e ∈ fsGreet, e.path = "greet.sh" ∧
        e.isDir = false ∧ isValidScript e = true :=
  c7_discovery_admits_valid cfgWeb fsGreet (by simp [fsGreet]) "greet.sh"

/-- Witness for C3: the characterization evaluated at the descriptor of
the greet service. -/
theorem c3_witness :
    ServiceDefinition.validate ⟨"G", "1", "", [⟨"Hi", "g.hi"⟩]⟩ = none ↔
      (trimSpace "G" ≠ "" ∧
       ([⟨"Hi", "g.hi"⟩] : List Endpoint) ≠ [] ∧
       (∀ e ∈ ([⟨"Hi", "g.hi"⟩] : List Endpoint), trimSpace e.name ≠ "" ∧
         e.subject ≠ "" ∧ e.subject.data.all validSubjectChar = true) ∧
       (([⟨"Hi", "g.hi"⟩] : List Endpoint).map Endpoint.name).Nodup ∧
       (([⟨"Hi", "g.hi"⟩] : List Endpoint).map Endpoint.subject).Nodup) :=
  c3_validate_characterization ⟨"G", "1", "", [⟨"Hi", "g.hi"⟩]⟩

end Natshd
